import Mathlib

/-!
Verification of the transactional-outbox + SAGA-compensation core of the
measurement / child-profile services.

The definitions below are a shallow embedding of the Python sources:

* `src/measurement_service/main.py` — the SQLite store (`measurements`,
  `outbox` tables), the `POST /measure` handler (`measure`), the background
  outbox publisher (`publish_outbox_events`), and the SAGA compensation
  listener (`compensate_saga_failure`, `consume_saga_compensation`).
* `src/child_profile_service/main.py` — the `child_profiles` table, the SAGA
  consumer (`update_profile_from_saga`, `saga_callback`) and the
  `PUT /profiles/{child_id}` handler (`update_profile`).

SQLite rows become Lean structures, tables become lists, AUTOINCREMENT ids
become explicit `next_*` counters (SQLite AUTOINCREMENT never reuses ids),
and the points where the Python code can raise (a failed INSERT/COMMIT, a
failed broker publish, a failed upsert) become explicit failure oracles.
Timestamps (`datetime.now().isoformat()`, `datetime('now')`) are opaque
inputs.  Heights are Python floats that the code only stores and forwards,
never computes with, so they are modelled as `Rat`.
-/

namespace SoaLabs

/-! ## Measurement-service data model

`measurements` table: `id INTEGER PRIMARY KEY AUTOINCREMENT, child_id, height,
timestamp, status TEXT DEFAULT 'pending'`.  The code writes `'pending'` on
insert and `'sent'` from the publisher; the spec also lists a `failed` state,
which the code never writes. -/

inductive MStatus where
  | pending
  | sent
  | failed
  deriving DecidableEq, Repr

structure Measurement where
  id : Nat
  child_id : Int
  height : Rat
  timestamp : String
  status : MStatus
  deriving DecidableEq, Repr

/-- The structured content of an outbox `payload` as built in `measure`
(`event_payload`): `{"measurement_id", "child_id", "height", "timestamp",
"task", "text"}`.  `task` is always `"send_notification"` and `text` is
derived from `child_id`/`height`, so only the four data fields are kept;
the serialized form is reconstructed by `payloadText` below. -/
structure Payload where
  measurement_id : Nat
  child_id : Int
  height : Rat
  timestamp : String
  deriving DecidableEq, Repr

/-- `outbox` table row: `id INTEGER PRIMARY KEY AUTOINCREMENT, event_type,
payload TEXT, published INTEGER DEFAULT 0, created_at`.  The code uses
`published = 0` for unpublished, `1` for published and `-1` for cancelled. -/
structure OutboxEvent where
  id : Nat
  event_type : String
  payload : Payload
  published : Int
  created_at : String
  deriving DecidableEq, Repr

/-- The measurement service's local SQLite database.  `next_mid` / `next_eid`
model the AUTOINCREMENT counters of the two tables (rowids start at 1 and are
never reused). -/
structure MStore where
  measurements : List Measurement
  outbox : List OutboxEvent
  next_mid : Nat
  next_eid : Nat
  deriving DecidableEq, Repr

def initStore : MStore := ⟨[], [], 1, 1⟩

/-! ## Payload serialization and the compensation LIKE pattern

`measure` stores `json.dumps(event_payload)`.  With Python's default
separators `(', ', ': ')` every key is followed by a colon **and a space**:
`{"measurement_id": 7, "child_id": 1, ...}`.  `compensate_saga_failure`
matches outbox rows with `payload LIKE '%"measurement_id":<id>%'` — colon,
no space.  We reproduce both strings faithfully (Python renders floats with
a decimal point, e.g. `120.0`, where `Rat` prints `120`; no claim depends on
the height digits, and the height text cannot contain a quote either way). -/

def payloadText (p : Payload) : String :=
  "\x7b\"measurement_id\": " ++ toString p.measurement_id ++
  ", \"child_id\": " ++ toString p.child_id ++
  ", \"height\": " ++ toString p.height ++
  ", \"timestamp\": \"" ++ p.timestamp ++
  "\", \"task\": \"send_notification\", \"text\": \"Measurement complete: child " ++
  toString p.child_id ++ ", height " ++ toString p.height ++ "cm\"\x7d"

/-- Substring test on character lists: `subListMatch pat l` iff `pat` occurs
(contiguously) somewhere in `l`.  This is SQLite `LIKE '%pat%'` for a pattern
with no wildcard characters. -/
def subListMatch (pat : List Char) : List Char → Bool
  | [] => pat.isEmpty
  | c :: rest => pat.isPrefixOf (c :: rest) || subListMatch pat rest

def strContainsSub (hay pat : String) : Bool :=
  subListMatch pat.data hay.data

/-- The `LIKE` pattern built by `compensate_saga_failure`:
`f'%"measurement_id":{measurement_id}%'`.  `measurement_id` comes from
`data.get("measurement_id")`, so a missing key interpolates as `None`. -/
def likePattern (mid : Option Nat) : String :=
  "\"measurement_id\":" ++ (match mid with | some m => toString m | none => "None")

/-! ## Outbox Writer + SAGA Initiator: `POST /measure` (`measure`)

The handler runs one SQLite transaction: INSERT into `measurements`, INSERT
into `outbox`, COMMIT.  Any exception rolls the connection back, so the
committed store is either unchanged or holds both new rows.  After a
successful commit it best-effort publishes one SagaRequest; a failure there
is caught, logged and swallowed.  `MeasureOracle` injects the possible
failure points. -/

inductive LocalFailure where
  | atMeasurementInsert
  | atOutboxInsert
  | atCommit
  deriving DecidableEq, Repr

structure MeasureOracle where
  localFail : Option LocalFailure
  sagaPublishFail : Bool
  deriving DecidableEq, Repr

structure MeasurementRequest where
  child_id : Int
  height : Rat
  force_saga_error : Bool
  deriving DecidableEq, Repr

inductive MeasureResult where
  | created (measurement_id : Nat)
  | error
  deriving DecidableEq, Repr

/-- The SagaRequest wire message published to `profile_update_queue`
(persistent, `expiration = MESSAGE_TTL_MS`). -/
structure SagaWireMsg where
  measurement_id : Nat
  child_id : Int
  height : Rat
  timestamp : String
  force_error : Bool
  expiration_ms : Nat
  deriving DecidableEq, Repr

def MESSAGE_TTL_MS : Nat := 30000

/-- `POST /measure`.  Returns the committed store, the HTTP result, and the
list of SagaRequests actually handed to the broker (empty when the best-effort
publish fails).  The uncommitted transaction states `pending1` / `pending2`
are discarded on any local failure (`conn.rollback()`). -/
def measure (req : MeasurementRequest) (ts : String) (o : MeasureOracle)
    (s : MStore) : MStore × MeasureResult × List SagaWireMsg :=
  -- Step 1: INSERT INTO measurements (child_id, height, timestamp, status)
  if o.localFail = some .atMeasurementInsert then (s, .error, []) else
  let mid := s.next_mid
  let m : Measurement := ⟨mid, req.child_id, req.height, ts, .pending⟩
  let pending1 : MStore :=
    { s with measurements := s.measurements ++ [m], next_mid := mid + 1 }
  -- Step 2: INSERT INTO outbox (event_type, payload, published, created_at)
  if o.localFail = some .atOutboxInsert then (s, .error, []) else
  let p : Payload := ⟨mid, req.child_id, req.height, ts⟩
  let e : OutboxEvent := ⟨s.next_eid, "measurement_created", p, 0, ts⟩
  let pending2 : MStore :=
    { pending1 with outbox := pending1.outbox ++ [e], next_eid := s.next_eid + 1 }
  -- conn.commit()
  if o.localFail = some .atCommit then (s, .error, []) else
  -- Step 3: best-effort SAGA publish; exceptions are caught and swallowed
  let sagaLog : List SagaWireMsg :=
    if o.sagaPublishFail then []
    else [⟨mid, req.child_id, req.height, ts, req.force_saga_error, MESSAGE_TTL_MS⟩]
  (pending2, .created mid, sagaLog)

/-! ### C1: atomicity of the Outbox Writer -/

/-- **C1.** For every creation request, either both the new `pending`
Measurement and the matching unpublished `measurement_created` OutboxEvent —
whose payload embeds the measurement's id, child_id, height and timestamp —
are committed and the new id is returned, or (on any local storage failure)
the committed store is exactly the original one and the caller gets a single
error response.  No store with exactly one of the two rows is observable. -/
theorem measure_atomic (req : MeasurementRequest) (ts : String)
    (o : MeasureOracle) (s : MStore) :
    (∃ mid,
      (measure req ts o s).2.1 = .created mid ∧
      (measure req ts o s).1.measurements =
        s.measurements ++ [⟨mid, req.child_id, req.height, ts, .pending⟩] ∧
      (measure req ts o s).1.outbox =
        s.outbox ++ [⟨s.next_eid, "measurement_created",
          ⟨mid, req.child_id, req.height, ts⟩, 0, ts⟩]) ∨
    ((measure req ts o s).2.1 = .error ∧ (measure req ts o s).1 = s) := by
  unfold measure
  rcases h : o.localFail with _ | f
  · simp [h]
  · cases f <;> simp [h]

/-! ### C7: a failed best-effort SAGA publish is swallowed -/

/-- **C7.** When the local commit succeeds but the SAGA Initiator's broker
publish fails, the handler still answers `created` with the new measurement
id, the committed Measurement (left `pending`) and OutboxEvent rows are
exactly those of a fully successful request, and no SagaRequest is ever
handed to the broker (no automatic re-drive). -/
theorem measure_saga_failure_swallowed (req : MeasurementRequest) (ts : String)
    (s : MStore) :
    (measure req ts ⟨none, true⟩ s).2.1 = .created s.next_mid ∧
    (measure req ts ⟨none, true⟩ s).1 = (measure req ts ⟨none, false⟩ s).1 ∧
    (measure req ts ⟨none, true⟩ s).1.measurements =
      s.measurements ++ [⟨s.next_mid, req.child_id, req.height, ts, .pending⟩] ∧
    (measure req ts ⟨none, true⟩ s).1.outbox =
      s.outbox ++ [⟨s.next_eid, "measurement_created",
        ⟨s.next_mid, req.child_id, req.height, ts⟩, 0, ts⟩] ∧
    (measure req ts ⟨none, true⟩ s).2.2 = [] := by
  simp [measure]

/-! ## Outbox Publisher: one polling cycle of `publish_outbox_events`

Each cycle runs `SELECT id, payload FROM outbox WHERE published = 0 ORDER BY
id ASC LIMIT 10`, then for each fetched event publishes its payload to the
notification queue and, on success, in one commit sets `published = 1` and
the referenced measurement's status to `'sent'`; a failed publish rolls the
per-event transaction back and the loop moves on to the next event.
`ORDER BY id ASC` is modelled by an insertion sort on the event id. -/

def insertById (e : OutboxEvent) : List OutboxEvent → List OutboxEvent
  | [] => [e]
  | x :: xs => if e.id ≤ x.id then e :: x :: xs else x :: insertById e xs

def sortById (l : List OutboxEvent) : List OutboxEvent :=
  l.foldr insertById []

/-- The batch one publisher cycle fetches: unpublished events, ascending id,
`LIMIT 10`. -/
def selectBatch (s : MStore) : List OutboxEvent :=
  (sortById (s.outbox.filter (fun e => e.published == 0))).take 10

/-- Marking step on success of event `eid`:
`UPDATE outbox SET published = 1 WHERE id = ?`. -/
def markPublishedIn (eid : Nat) (l : List OutboxEvent) : List OutboxEvent :=
  l.map fun x => if x.id = eid then { x with published := 1 } else x

/-- `UPDATE measurements SET status = 'sent' WHERE id = ?`, guarded by the
Python truthiness test `if measurement_id:` (skipped when the payload's
`measurement_id` is falsy, i.e. 0). -/
def markSentIn (mid : Nat) (l : List Measurement) : List Measurement :=
  if mid ≠ 0 then
    l.map fun m => if m.id = mid then { m with status := .sent } else m
  else l

/-- Per-event body of the publisher loop over an already-fetched batch.
`pubOk` tells, per outbox event id, whether `basic_publish` succeeds.
Returns the final store and the ids of the events whose payload actually
reached the notification queue, in publish order. -/
def cycleGo (pubOk : Nat → Bool) : List OutboxEvent → MStore → MStore × List Nat
  | [], s => (s, [])
  | e :: rest, s =>
    if pubOk e.id then
      let s' : MStore :=
        { s with
          outbox := markPublishedIn e.id s.outbox,
          measurements := markSentIn e.payload.measurement_id s.measurements }
      let r := cycleGo pubOk rest s'
      (r.1, e.id :: r.2)
    else
      -- conn.rollback(): the event's updates are discarded, loop continues
      cycleGo pubOk rest s

/-- One full polling cycle of `publish_outbox_events` (fetch, then publish
each fetched event). -/
def publisherCycle (pubOk : Nat → Bool) (s : MStore) : MStore × List Nat :=
  cycleGo pubOk (selectBatch s) s

/-! ## Compensation Listener: `compensate_saga_failure`

On a dead-lettered SagaRequest it deletes the referenced measurement
(`DELETE FROM measurements WHERE id = ?`; `id = NULL` matches no row when the
key is absent) and sets `published = -1` on outbox rows with
`payload LIKE '%"measurement_id":<id>%' AND published = 0`, commits, and acks.
Any exception is caught and answered with `basic_nack(requeue=True)`. -/

structure DlqMessage where
  measurement_id : Option Nat
  child_id : Option Int
  deriving DecidableEq, Repr

inductive CompAck where
  | ack
  | nackRequeue
  deriving DecidableEq, Repr

/-- The row-level effect of
`UPDATE outbox SET published = -1 WHERE payload LIKE ? AND published = 0`. -/
def cancelPoint (mid : Option Nat) (e : OutboxEvent) : OutboxEvent :=
  if strContainsSub (payloadText e.payload) (likePattern mid) && e.published == 0
  then { e with published := -1 } else e

def cancelMatching (mid : Option Nat) (l : List OutboxEvent) : List OutboxEvent :=
  l.map (cancelPoint mid)

/-- `compensate_saga_failure`.  `dbFail` injects a local-storage exception
(in which case nothing commits and the message is nacked with requeue). -/
def compensate_saga_failure (msg : DlqMessage) (dbFail : Bool) (s : MStore) :
    MStore × CompAck :=
  if dbFail then (s, .nackRequeue)
  else
    ({ s with
        measurements := match msg.measurement_id with
          | some mid => s.measurements.filter (fun m => m.id ≠ mid)
          | none => s.measurements,
        outbox := cancelMatching msg.measurement_id s.outbox },
     .ack)

/-! ### C2: the cancellation UPDATE never matches the stored payload

`json.dumps` writes `"measurement_id": 7` (colon-space) while the LIKE
pattern is `"measurement_id":7` (no space), so the
`UPDATE outbox SET published = -1 ...` matches no row: after compensation the
rolled-back measurement's event is still `unpublished` and the next publisher
cycle emits its notification. -/

/-- The committed store after a successful `POST /measure {child_id:1,
height:120.0, force_saga_error:true}` on an empty database. -/
def c2Store : MStore :=
  (measure ⟨1, 120, true⟩ "2024-05-01T10:00:00" ⟨none, false⟩ initStore).1

/-- Compensation for the dead-lettered SagaRequest of measurement 1. -/
def c2After : MStore × CompAck :=
  compensate_saga_failure ⟨some 1, some 1⟩ false c2Store

/-- **C2 (bug evaluation).** On the dead-lettered SagaRequest for
measurement 1, compensation deletes the measurement and acks, but the
still-unpublished OutboxEvent referencing it keeps `published = 0` instead of
being cancelled — its payload contains `"measurement_id": 1` while the LIKE
pattern requires `"measurement_id":1` — and the next publisher cycle emits
the notification for the rolled-back measurement. -/
theorem compensation_leaves_event_unpublished :
    c2After.2 = .ack ∧
    c2After.1.measurements = [] ∧
    c2After.1.outbox = [⟨1, "measurement_created",
      ⟨1, 1, 120, "2024-05-01T10:00:00"⟩, 0, "2024-05-01T10:00:00"⟩] ∧
    (publisherCycle (fun _ => true) c2After.1).2 = [1] := by
  decide

/-! ### C6: compensation is idempotent -/

theorem cancelPoint_idem (mid : Option Nat) (e : OutboxEvent) :
    cancelPoint mid (cancelPoint mid e) = cancelPoint mid e := by
  unfold cancelPoint
  by_cases h : strContainsSub (payloadText e.payload) (likePattern mid) &&
      e.published == 0
  · simp [h]
  · simp [h]

theorem cancelMatching_idem (mid : Option Nat) (l : List OutboxEvent) :
    cancelMatching mid (cancelMatching mid l) = cancelMatching mid l := by
  induction l with
  | nil => rfl
  | cons x xs ih =>
    show cancelPoint mid (cancelPoint mid x) ::
        cancelMatching mid (cancelMatching mid xs) =
      cancelPoint mid x :: cancelMatching mid xs
    rw [cancelPoint_idem, ih]

/-- **C6.** Compensation is idempotent: for every dead-lettered SagaRequest
and every store state, running `compensate_saga_failure` a second time (with
no injected local failure) leaves the store exactly as after the first run
and still ends in an acknowledgment — re-deleting a deleted Measurement and
re-cancelling an already-cancelled or published OutboxEvent are no-ops. -/
theorem compensation_idempotent (msg : DlqMessage) (s : MStore) :
    compensate_saga_failure msg false
        (compensate_saga_failure msg false s).1 =
      ((compensate_saga_failure msg false s).1, .ack) := by
  unfold compensate_saga_failure
  simp only [Bool.false_eq_true, if_false, cancelMatching_idem]
  rcases msg.measurement_id with _ | mid
  · rfl
  · simp [List.filter_filter]

/-! ### Characterizing one publisher cycle

The loop body only ever flips `published` from 0 to 1 on the event ids whose
publish succeeded, and only ever sets `status = 'sent'` on the measurements
those events reference.  The fold over the batch is equal to a single
pointwise map with the collected id sets. -/

def succIds (pubOk : Nat → Bool) (batch : List OutboxEvent) : List Nat :=
  (batch.filter (fun e => pubOk e.id)).map (·.id)

def sentMids (pubOk : Nat → Bool) (batch : List OutboxEvent) : List Nat :=
  ((batch.filter (fun e => pubOk e.id)).map (·.payload.measurement_id)).filter
    (fun mid => mid ≠ 0)

def markPubList (ids : List Nat) (e : OutboxEvent) : OutboxEvent :=
  if e.id ∈ ids then { e with published := 1 } else e

def markSentList (mids : List Nat) (m : Measurement) : Measurement :=
  if m.id ∈ mids then { m with status := .sent } else m

theorem markPubList_point (i : Nat) (ids : List Nat) (x : OutboxEvent) :
    markPubList ids (if x.id = i then { x with published := 1 } else x) =
      markPubList (i :: ids) x := by
  unfold markPubList
  by_cases hx : x.id = i
  · simp [hx]
  · by_cases hm : x.id ∈ ids <;> simp [hx, hm]

theorem markSentList_point (i : Nat) (mids : List Nat) (m : Measurement) :
    markSentList mids (if m.id = i then { m with status := .sent } else m) =
      markSentList (i :: mids) m := by
  unfold markSentList
  by_cases hx : m.id = i
  · simp [hx]
  · by_cases hm : m.id ∈ mids <;> simp [hx, hm]

theorem cycleGo_spec (pubOk : Nat → Bool) (batch : List OutboxEvent) :
    ∀ s : MStore,
      (cycleGo pubOk batch s).1.outbox =
        s.outbox.map (markPubList (succIds pubOk batch)) ∧
      (cycleGo pubOk batch s).1.measurements =
        s.measurements.map (markSentList (sentMids pubOk batch)) ∧
      (cycleGo pubOk batch s).2 = succIds pubOk batch := by
  induction batch with
  | nil =>
    intro s
    refine ⟨?_, ?_, rfl⟩
    · show s.outbox = List.map (markPubList []) s.outbox
      symm
      rw [show List.map (markPubList []) s.outbox = List.map id s.outbox from
        List.map_congr_left fun a _ => by simp [markPubList]]
      exact List.map_id _
    · show s.measurements = List.map (markSentList []) s.measurements
      symm
      rw [show List.map (markSentList []) s.measurements =
          List.map id s.measurements from
        List.map_congr_left fun a _ => by simp [markSentList]]
      exact List.map_id _
  | cons e rest ih =>
    intro s
    by_cases hp : pubOk e.id
    · have hgo := ih
        { s with
          outbox := markPublishedIn e.id s.outbox,
          measurements := markSentIn e.payload.measurement_id s.measurements }
      refine ⟨?_, ?_, ?_⟩
      · rw [show (cycleGo pubOk (e :: rest) s).1 =
            (cycleGo pubOk rest
              { s with
                outbox := markPublishedIn e.id s.outbox,
                measurements :=
                  markSentIn e.payload.measurement_id s.measurements }).1 by
            simp [cycleGo, hp]]
        rw [hgo.1]
        show (markPublishedIn e.id s.outbox).map _ = _
        rw [markPublishedIn, List.map_map]
        have hsucc : succIds pubOk (e :: rest) = e.id :: succIds pubOk rest := by
          simp [succIds, List.filter_cons, hp]
        rw [hsucc]
        apply List.map_congr_left
        intro x _
        exact markPubList_point e.id (succIds pubOk rest) x
      · rw [show (cycleGo pubOk (e :: rest) s).1 =
            (cycleGo pubOk rest
              { s with
                outbox := markPublishedIn e.id s.outbox,
                measurements :=
                  markSentIn e.payload.measurement_id s.measurements }).1 by
            simp [cycleGo, hp]]
        rw [hgo.2.1]
        show (markSentIn e.payload.measurement_id s.measurements).map _ = _
        by_cases hm : e.payload.measurement_id ≠ 0
        · have hsent : sentMids pubOk (e :: rest) =
              e.payload.measurement_id :: sentMids pubOk rest := by
            simp [sentMids, List.filter_cons, hp, hm]
          rw [hsent, markSentIn, if_pos hm, List.map_map]
          apply List.map_congr_left
          intro x _
          exact markSentList_point e.payload.measurement_id (sentMids pubOk rest) x
        · have hsent : sentMids pubOk (e :: rest) = sentMids pubOk rest := by
            simp only [ne_eq, not_not] at hm
            simp [sentMids, List.filter_cons, hp, hm]
          rw [hsent, markSentIn, if_neg hm]
      · have hlog : (cycleGo pubOk (e :: rest) s).2 =
            e.id :: (cycleGo pubOk rest
              { s with
                outbox := markPublishedIn e.id s.outbox,
                measurements :=
                  markSentIn e.payload.measurement_id s.measurements }).2 := by
          simp [cycleGo, hp]
        rw [hlog, hgo.2.2]
        simp [succIds, List.filter_cons, hp]
    · have hstep : cycleGo pubOk (e :: rest) s = cycleGo pubOk rest s := by
        simp [cycleGo, hp]
      have hsucc : succIds pubOk (e :: rest) = succIds pubOk rest := by
        simp [succIds, List.filter_cons, hp]
      have hsent : sentMids pubOk (e :: rest) = sentMids pubOk rest := by
        simp [sentMids, List.filter_cons, hp]
      rw [hstep, hsucc, hsent]
      exact ih s

theorem mem_insertById {a e : OutboxEvent} {l : List OutboxEvent} :
    a ∈ insertById e l ↔ a = e ∨ a ∈ l := by
  induction l with
  | nil => simp [insertById]
  | cons x xs ih =>
    by_cases h : e.id ≤ x.id
    · simp [insertById, h]
    · simp only [insertById, if_neg h, List.mem_cons, ih]
      tauto

theorem mem_sortById {a : OutboxEvent} {l : List OutboxEvent} :
    a ∈ sortById l ↔ a ∈ l := by
  induction l with
  | nil => simp [sortById]
  | cons x xs ih =>
    show a ∈ insertById x (sortById xs) ↔ _
    rw [mem_insertById, ih]
    simp

theorem mem_of_mem_selectBatch {e : OutboxEvent} {s : MStore}
    (h : e ∈ selectBatch s) : e ∈ s.outbox ∧ e.published = 0 := by
  unfold selectBatch at h
  have h1 := List.mem_of_mem_take h
  rw [mem_sortById] at h1
  have h2 := List.of_mem_filter h1
  exact ⟨List.mem_of_mem_filter h1, by simpa using h2⟩

theorem not_mem_succIds {e : OutboxEvent} {pubOk : Nat → Bool}
    {batch : List OutboxEvent} (h : pubOk e.id = false) :
    e.id ∉ succIds pubOk batch := by
  intro hmem
  unfold succIds at hmem
  obtain ⟨e', he', heq⟩ := List.mem_map.mp hmem
  have := List.of_mem_filter he'
  rw [heq] at this
  rw [h] at this
  exact Bool.false_ne_true this

/-! ### C4: per-event success/failure isolation in a publisher cycle -/

/-- **C4.** In one publisher cycle, every fetched event whose broker publish
succeeds ends the cycle with `published = 1`, and (when its payload
references a measurement, i.e. the truthiness guard passes) every measurement
row it references ends with status `'sent'`; every fetched event whose
publish fails is rolled back — its row survives the cycle completely
unchanged, still `unpublished` for the next cycle — independently of what
happened to the other events of the batch. -/
theorem publisher_cycle_event_outcomes (pubOk : Nat → Bool) (s : MStore)
    (e : OutboxEvent) (he : e ∈ selectBatch s) :
    (pubOk e.id = true →
      { e with published := 1 } ∈ (publisherCycle pubOk s).1.outbox ∧
      (e.payload.measurement_id ≠ 0 →
        ∀ m ∈ (publisherCycle pubOk s).1.measurements,
          m.id = e.payload.measurement_id → m.status = .sent)) ∧
    (pubOk e.id = false →
      e ∈ (publisherCycle pubOk s).1.outbox ∧ e.published = 0) := by
  have hspec := cycleGo_spec pubOk (selectBatch s) s
  have hmem := mem_of_mem_selectBatch he
  constructor
  · intro hp
    constructor
    · show _ ∈ (cycleGo pubOk (selectBatch s) s).1.outbox
      rw [hspec.1]
      refine List.mem_map.mpr ⟨e, hmem.1, ?_⟩
      have hid : e.id ∈ succIds pubOk (selectBatch s) :=
        List.mem_map.mpr ⟨e, List.mem_filter.mpr ⟨he, hp⟩, rfl⟩
      simp [markPubList, hid]
    · intro hmid m hm hmids
      show m.status = .sent
      have : m ∈ (cycleGo pubOk (selectBatch s) s).1.measurements := hm
      rw [hspec.2.1] at this
      obtain ⟨m0, _, hm0⟩ := List.mem_map.mp this
      have hin : e.payload.measurement_id ∈ sentMids pubOk (selectBatch s) := by
        refine List.mem_filter.mpr ⟨?_, by simpa using hmid⟩
        exact List.mem_map.mpr ⟨e, List.mem_filter.mpr ⟨he, hp⟩, rfl⟩
      rw [← hm0]
      unfold markSentList
      by_cases h0 : m0.id ∈ sentMids pubOk (selectBatch s)
      · simp [h0]
      · exfalso
        apply h0
        have : m.id = m0.id := by rw [← hm0]; unfold markSentList; split <;> rfl
        rw [← this, hmids]
        exact hin
  · intro hp
    refine ⟨?_, hmem.2⟩
    show _ ∈ (cycleGo pubOk (selectBatch s) s).1.outbox
    rw [hspec.1]
    refine List.mem_map.mpr ⟨e, hmem.1, ?_⟩
    simp [markPubList, not_mem_succIds hp]

/-- Concrete witness store for C4: two unpublished events (ids 1 and 2) from
two measurements; the oracle succeeds on event 1 and fails on event 2. -/
def c4Store : MStore :=
  (measure ⟨2, 95, false⟩ "t2" ⟨none, false⟩
    (measure ⟨1, 120, false⟩ "t1" ⟨none, false⟩ initStore).1).1

def c4Oracle : Nat → Bool := fun i => i == 1

theorem publisher_cycle_event_outcomes_witness :
    ((⟨2, "measurement_created", ⟨2, 2, 95, "t2"⟩, 0, "t2"⟩ : OutboxEvent) ∈
        selectBatch c4Store) ∧
    ((c4Oracle 2 = true →
      ({ (⟨2, "measurement_created", ⟨2, 2, 95, "t2"⟩, 0, "t2"⟩ : OutboxEvent)
          with published := 1 }) ∈ (publisherCycle c4Oracle c4Store).1.outbox ∧
      ((2 : Nat) ≠ 0 →
        ∀ m ∈ (publisherCycle c4Oracle c4Store).1.measurements,
          m.id = 2 → m.status = .sent)) ∧
    (c4Oracle 2 = false →
      (⟨2, "measurement_created", ⟨2, 2, 95, "t2"⟩, 0, "t2"⟩ : OutboxEvent) ∈
        (publisherCycle c4Oracle c4Store).1.outbox ∧
      ((0 : Int) = 0))) :=
  ⟨by decide,
   publisher_cycle_event_outcomes c4Oracle c4Store
     ⟨2, "measurement_created", ⟨2, 2, 95, "t2"⟩, 0, "t2"⟩ (by decide)⟩

/-! ### Ordering facts about the batch and across cycles (C5) -/

theorem insertById_pairwise (e : OutboxEvent) (l : List OutboxEvent) :
    List.Pairwise (fun a b : OutboxEvent => a.id ≤ b.id) l →
    List.Pairwise (fun a b : OutboxEvent => a.id ≤ b.id) (insertById e l) := by
  induction l with
  | nil => intro _; simp [insertById]
  | cons x xs ih =>
    intro h
    obtain ⟨hx, hxs⟩ := List.pairwise_cons.mp h
    by_cases hc : e.id ≤ x.id
    · rw [insertById, if_pos hc]
      refine List.Pairwise.cons ?_ (List.Pairwise.cons hx hxs)
      intro b hb
      rcases List.mem_cons.mp hb with rfl | hb'
      · exact hc
      · exact le_trans hc (hx b hb')
    · rw [insertById, if_neg hc]
      refine List.Pairwise.cons ?_ (ih hxs)
      intro b hb
      rcases mem_insertById.mp hb with rfl | hb'
      · exact le_of_not_le hc
      · exact hx b hb'

theorem sortById_pairwise (l : List OutboxEvent) :
    List.Pairwise (fun a b : OutboxEvent => a.id ≤ b.id) (sortById l) := by
  induction l with
  | nil => simp [sortById]
  | cons x xs ih => exact insertById_pairwise x (sortById xs) ih

theorem insertById_eq_cons {e : OutboxEvent} {l : List OutboxEvent}
    (h : ∀ x ∈ l, e.id < x.id) : insertById e l = e :: l := by
  cases l with
  | nil => rfl
  | cons x xs =>
    rw [insertById, if_pos (le_of_lt (h x (List.mem_cons_self x xs)))]

theorem sortById_eq_self (l : List OutboxEvent) :
    List.Pairwise (fun a b : OutboxEvent => a.id < b.id) l → sortById l = l := by
  induction l with
  | nil => intro _; rfl
  | cons x xs ih =>
    intro h
    obtain ⟨hx, hxs⟩ := List.pairwise_cons.mp h
    show insertById x (sortById xs) = x :: xs
    rw [ih hxs]
    exact insertById_eq_cons hx

theorem markPubList_id (ids : List Nat) (e : OutboxEvent) :
    (markPubList ids e).id = e.id := by
  unfold markPubList; split <;> rfl

theorem map_id_markPubList (ids : List Nat) (l : List OutboxEvent) :
    (l.map (markPubList ids)).map (·.id) = l.map (·.id) := by
  rw [List.map_map]
  exact List.map_congr_left fun a _ => markPubList_id ids a

theorem filter_unpub_markPubList (ids : List Nat) (l : List OutboxEvent) :
    (l.map (markPubList ids)).filter (fun e => e.published == 0) =
      (l.filter (fun e => e.published == 0)).filter
        (fun e => !(decide (e.id ∈ ids))) := by
  induction l with
  | nil => rfl
  | cons x xs ih =>
    by_cases hx : x.id ∈ ids
    · have hhead : markPubList ids x = { x with published := 1 } := by
        simp [markPubList, hx]
      by_cases hp : x.published == 0
      · simp only [List.map_cons, List.filter_cons, hhead]
        simp [hx, hp, ih]
      · simp only [List.map_cons, List.filter_cons, hhead]
        simp [hx, hp, ih]
    · have hhead : markPubList ids x = x := by simp [markPubList, hx]
      by_cases hp : x.published == 0
      · simp only [List.map_cons, List.filter_cons, hhead]
        simp [hx, hp, ih]
      · simp only [List.map_cons, List.filter_cons, hhead]
        simp [hx, hp, ih]

theorem filter_not_taken_ids {u : List OutboxEvent} {k : Nat}
    (h : List.Pairwise (fun a b : OutboxEvent => a.id < b.id) u) :
    u.filter (fun e => !(decide (e.id ∈ (u.take k).map (·.id)))) = u.drop k := by
  have hsplit : List.Pairwise (fun a b : OutboxEvent => a.id < b.id)
      (u.take k ++ u.drop k) := by
    rw [List.take_append_drop]; exact h
  have hcross := (List.pairwise_append.mp hsplit).2.2
  have hfu := List.filter_append
    (p := fun e => !(decide (e.id ∈ (u.take k).map (·.id))))
    (u.take k) (u.drop k)
  rw [List.take_append_drop] at hfu
  have h1 : (u.take k).filter
      (fun e => !(decide (e.id ∈ (u.take k).map (·.id)))) = [] := by
    rw [List.filter_eq_nil_iff]
    intro a ha
    have hmem : a.id ∈ (u.take k).map (·.id) := List.mem_map.mpr ⟨a, ha, rfl⟩
    simpa using hmem
  have h2 : (u.drop k).filter
      (fun e => !(decide (e.id ∈ (u.take k).map (·.id)))) = u.drop k := by
    rw [List.filter_eq_self]
    intro b hb
    have hnot : b.id ∉ (u.take k).map (·.id) := by
      intro hmem
      obtain ⟨a, ha, haid⟩ := List.mem_map.mp hmem
      exact absurd (haid ▸ hcross a ha b hb) (lt_irrefl _)
    simpa using hnot
  rw [hfu, h1, h2, List.nil_append]

/-- Repeated polling cycles of `publish_outbox_events`, collecting the
sequence of payload publications to the notification queue (by event id). -/
def runCycles (pubOk : Nat → Bool) : Nat → MStore → MStore × List Nat
  | 0, s => (s, [])
  | n + 1, s =>
    let r := publisherCycle pubOk s
    let r' := runCycles pubOk n r.1
    (r'.1, r.2 ++ r'.2)

theorem runCycles_log (n : Nat) :
    ∀ s : MStore,
      List.Pairwise (· < ·) (s.outbox.map (·.id)) →
      (runCycles (fun _ => true) n s).2 =
        ((s.outbox.filter (fun e => e.published == 0)).take (10 * n)).map
          (·.id) := by
  induction n with
  | zero => intro s _; simp [runCycles]
  | succ n ih =>
    intro s hs
    have hpl : List.Pairwise (fun a b : OutboxEvent => a.id < b.id) s.outbox :=
      List.pairwise_map.mp hs
    have hu : List.Pairwise (fun a b : OutboxEvent => a.id < b.id)
        (s.outbox.filter (fun e => e.published == 0)) :=
      hpl.sublist (List.filter_sublist s.outbox)
    set u := s.outbox.filter (fun e => e.published == 0) with hudef
    have hbatch : selectBatch s = u.take 10 := by
      rw [selectBatch, ← hudef, sortById_eq_self u hu]
    have hspec := cycleGo_spec (fun _ => true) (selectBatch s) s
    have hsucc : succIds (fun _ => true) (selectBatch s) =
        (u.take 10).map (·.id) := by
      rw [succIds, hbatch, List.filter_eq_self.mpr (by intro a _; rfl)]
    have hs' : (publisherCycle (fun _ => true) s).1.outbox =
        s.outbox.map (markPubList ((u.take 10).map (·.id))) := by
      show (cycleGo (fun _ => true) (selectBatch s) s).1.outbox = _
      rw [hspec.1, hsucc]
    have hlog1 : (publisherCycle (fun _ => true) s).2 =
        (u.take 10).map (·.id) := by
      show (cycleGo (fun _ => true) (selectBatch s) s).2 = _
      rw [hspec.2.2, hsucc]
    have hs'sorted : List.Pairwise (· < ·)
        ((publisherCycle (fun _ => true) s).1.outbox.map (·.id)) := by
      rw [hs', map_id_markPubList]; exact hs
    have hunpub' : (publisherCycle (fun _ => true) s).1.outbox.filter
        (fun e => e.published == 0) = u.drop 10 := by
      rw [hs', filter_unpub_markPubList, ← hudef, filter_not_taken_ids hu]
    show (publisherCycle (fun _ => true) s).2 ++
        (runCycles (fun _ => true) n (publisherCycle (fun _ => true) s).1).2 = _
    rw [hlog1, ih _ hs'sorted, hunpub']
    rw [show 10 * (n + 1) = 10 + 10 * n by ring, List.take_add, List.map_append]

/-- **C5.** Each publisher cycle considers at most 10 events, all
unpublished, in ascending-id order; the publish log of a single cycle is
strictly ascending by id under any per-event success oracle; and over any
number of cycles in which publishes succeed, the cumulative publication
sequence to the notification queue is exactly the first `10·n` unpublished
events in ascending-id (insertion) order. -/
theorem publisher_batch_and_order (s : MStore) (n : Nat)
    (hs : List.Pairwise (· < ·) (s.outbox.map (·.id))) :
    (selectBatch s).length ≤ 10 ∧
    (∀ e ∈ selectBatch s, e.published = 0) ∧
    (∀ pubOk, List.Pairwise (· < ·) ((publisherCycle pubOk s).2)) ∧
    (runCycles (fun _ => true) n s).2 =
      ((s.outbox.filter (fun e => e.published == 0)).take (10 * n)).map
        (·.id) ∧
    List.Pairwise (· < ·) ((runCycles (fun _ => true) n s).2) := by
  have hpl : List.Pairwise (fun a b : OutboxEvent => a.id < b.id) s.outbox :=
    List.pairwise_map.mp hs
  have hu : List.Pairwise (fun a b : OutboxEvent => a.id < b.id)
      (s.outbox.filter (fun e => e.published == 0)) :=
    hpl.sublist (List.filter_sublist s.outbox)
  have hbatch : selectBatch s =
      (s.outbox.filter (fun e => e.published == 0)).take 10 := by
    rw [selectBatch, sortById_eq_self _ hu]
  refine ⟨?_, ?_, ?_, runCycles_log n s hs, ?_⟩
  · rw [hbatch]; exact List.length_take_le 10 _
  · intro e he; exact (mem_of_mem_selectBatch he).2
  · intro pubOk
    have hbs : List.Pairwise (fun a b : OutboxEvent => a.id < b.id)
        (selectBatch s) := by
      rw [hbatch]; exact hu.sublist (List.take_sublist 10 _)
    have hlog : (publisherCycle pubOk s).2 = succIds pubOk (selectBatch s) :=
      (cycleGo_spec pubOk (selectBatch s) s).2.2
    rw [hlog, succIds]
    exact List.pairwise_map.mpr (hbs.sublist (List.filter_sublist _))
  · rw [runCycles_log n s hs]
    have htake : List.Pairwise (fun a b : OutboxEvent => a.id < b.id)
        ((s.outbox.filter (fun e => e.published == 0)).take (10 * n)) :=
      hu.sublist (List.take_sublist _ _)
    exact List.pairwise_map.mpr htake

/-- Store with two unpublished events (ids 1 and 2) for the C5
counterexample. -/
def c5FailStore : MStore :=
  (measure ⟨2, 95, false⟩ "t2" ⟨none, false⟩
    (measure ⟨1, 120, false⟩ "t1" ⟨none, false⟩ initStore).1).1

/-- **C5 (counterexample).** With events 1 and 2 unpublished, a cycle in
which the publish of event 1 fails (and is rolled back for retry) while
event 2 succeeds, followed by a cycle where the retry succeeds, publishes to
the notification queue in the order `[2, 1]` — descending, not ascending, by
id — so the cumulative publication order for events created in sequence is
not always ascending. -/
theorem publisher_retry_breaks_global_order :
    (publisherCycle (fun i => i == 2) c5FailStore).2 = [2] ∧
    (publisherCycle (fun _ => true)
      (publisherCycle (fun i => i == 2) c5FailStore).1).2 = [1] ∧
    ¬ List.Pairwise (· ≤ ·)
      ((publisherCycle (fun i => i == 2) c5FailStore).2 ++
        (publisherCycle (fun _ => true)
          (publisherCycle (fun i => i == 2) c5FailStore).1).2) := by
  decide

/-- C5 witness: three measurements on an empty store, two cycles with all
publishes succeeding. -/
def c5Store : MStore :=
  (measure ⟨3, 100, false⟩ "t3" ⟨none, false⟩
    (measure ⟨2, 95, false⟩ "t2" ⟨none, false⟩
      (measure ⟨1, 120, false⟩ "t1" ⟨none, false⟩ initStore).1).1).1

theorem publisher_batch_and_order_witness :
    List.Pairwise (· < ·) (c5Store.outbox.map (·.id)) ∧
    ((selectBatch c5Store).length ≤ 10 ∧
    (∀ e ∈ selectBatch c5Store, e.published = 0) ∧
    (∀ pubOk, List.Pairwise (· < ·) ((publisherCycle pubOk c5Store).2)) ∧
    (runCycles (fun _ => true) 2 c5Store).2 =
      ((c5Store.outbox.filter (fun e => e.published == 0)).take (10 * 2)).map
        (·.id) ∧
    List.Pairwise (· < ·) ((runCycles (fun _ => true) 2 c5Store).2)) :=
  ⟨by decide, publisher_batch_and_order c5Store 2 (by decide)⟩

/-! ### The measurement-side store as a transition system (C8)

The three operations that touch the measurement service's database are the
`POST /measure` handler, one publisher polling cycle, and one compensation
delivery.  `Reachable` is the set of stores produced by any interleaving of
them starting from the freshly initialized database. -/

inductive MOp where
  | measureOp (req : MeasurementRequest) (ts : String) (o : MeasureOracle)
  | publishOp (pubOk : Nat → Bool)
  | compensateOp (msg : DlqMessage) (dbFail : Bool)

def applyOp : MOp → MStore → MStore
  | .measureOp req ts o, s => (measure req ts o s).1
  | .publishOp pubOk, s => (publisherCycle pubOk s).1
  | .compensateOp msg dbFail, s => (compensate_saga_failure msg dbFail s).1

inductive Reachable : MStore → Prop where
  | init : Reachable initStore
  | step (op : MOp) {s : MStore} : Reachable s → Reachable (applyOp op s)

/-- Inductive invariant of the measurement store: row ids are positive and
below the AUTOINCREMENT counter, no two outbox events reference the same
measurement, and every `sent` measurement has a `published` event
referencing it. -/
def Inv (s : MStore) : Prop :=
  1 ≤ s.next_mid ∧
  (∀ m ∈ s.measurements, 1 ≤ m.id ∧ m.id < s.next_mid) ∧
  (∀ e ∈ s.outbox,
    1 ≤ e.payload.measurement_id ∧ e.payload.measurement_id < s.next_mid) ∧
  (s.outbox.map (·.payload.measurement_id)).Nodup ∧
  (∀ m ∈ s.measurements, m.status = .sent →
    ∃ e ∈ s.outbox, e.payload.measurement_id = m.id ∧ e.published = 1)

theorem measure_store_cases (req : MeasurementRequest) (ts : String)
    (o : MeasureOracle) (s : MStore) :
    (measure req ts o s).1 = s ∨
    (measure req ts o s).1 =
      { measurements :=
          s.measurements ++ [⟨s.next_mid, req.child_id, req.height, ts, .pending⟩],
        outbox := s.outbox ++ [⟨s.next_eid, "measurement_created",
          ⟨s.next_mid, req.child_id, req.height, ts⟩, 0, ts⟩],
        next_mid := s.next_mid + 1,
        next_eid := s.next_eid + 1 } := by
  unfold measure
  rcases h : o.localFail with _ | f
  · right; simp [h]
  · left; cases f <;> simp [h]

theorem cycleGo_counters (pubOk : Nat → Bool) (batch : List OutboxEvent) :
    ∀ s : MStore,
      (cycleGo pubOk batch s).1.next_mid = s.next_mid ∧
      (cycleGo pubOk batch s).1.next_eid = s.next_eid := by
  induction batch with
  | nil => intro s; exact ⟨rfl, rfl⟩
  | cons e rest ih =>
    intro s
    by_cases hp : pubOk e.id
    · have := ih
        { s with
          outbox := markPublishedIn e.id s.outbox,
          measurements := markSentIn e.payload.measurement_id s.measurements }
      simpa [cycleGo, hp] using this
    · simpa [cycleGo, hp] using ih s

theorem markSentList_preserves_id (mids : List Nat) (m : Measurement) :
    (markSentList mids m).id = m.id := by
  unfold markSentList; split <;> rfl

theorem markPubList_payload (ids : List Nat) (e : OutboxEvent) :
    (markPubList ids e).payload = e.payload := by
  unfold markPubList; split <;> rfl

theorem markPubList_pub_one {ids : List Nat} {e : OutboxEvent}
    (h : e.published = 1) : (markPubList ids e).published = 1 := by
  unfold markPubList; split
  · rfl
  · exact h

/-- In a list whose key images are duplicate-free, at most one element passes
a filter that pins the key. -/
theorem length_filter_key_le_one {α : Type} (f : α → Nat) (p : α → Bool)
    (v : Nat) :
    ∀ l : List α, (l.map f).Nodup →
      (l.filter (fun x => f x == v && p x)).length ≤ 1 := by
  intro l
  induction l with
  | nil => intro _; simp
  | cons x xs ih =>
    intro hnd
    rw [List.map_cons, List.nodup_cons] at hnd
    by_cases hx : (f x == v && p x) = true
    · have hfx : f x = v := by
        have := (Bool.and_eq_true _ _).mp hx
        exact beq_iff_eq.mp this.1
      have hempty : xs.filter (fun y => f y == v && p y) = [] := by
        rw [List.filter_eq_nil_iff]
        intro y hy hcontra
        have hfy : f y = v := by
          have := (Bool.and_eq_true _ _).mp hcontra
          exact beq_iff_eq.mp this.1
        exact hnd.1 (hfx ▸ hfy ▸ List.mem_map.mpr ⟨y, hy, rfl⟩)
      rw [List.filter_cons, if_pos hx, hempty]
      simp
    · rw [List.filter_cons, if_neg hx]
      exact ih hnd.2

theorem inv_init : Inv initStore := by
  refine ⟨le_refl 1, ?_, ?_, ?_, ?_⟩ <;> simp [initStore]

theorem markPubList_pub_of_mem {ids : List Nat} {e : OutboxEvent}
    (h : e.id ∈ ids) : (markPubList ids e).published = 1 := by
  unfold markPubList; rw [if_pos h]

theorem map_mid_markPubList (ids : List Nat) (l : List OutboxEvent) :
    (l.map (markPubList ids)).map (·.payload.measurement_id) =
      l.map (·.payload.measurement_id) := by
  induction l with
  | nil => rfl
  | cons x xs ih =>
    show (markPubList ids x).payload.measurement_id :: _ = _
    rw [markPubList_payload, ih, List.map_cons]

theorem cancelPoint_payload (mid : Option Nat) (e : OutboxEvent) :
    (cancelPoint mid e).payload = e.payload := by
  unfold cancelPoint; split <;> rfl

theorem cancelPoint_pub_one {mid : Option Nat} {e : OutboxEvent}
    (h : e.published = 1) : (cancelPoint mid e).published = 1 := by
  have hc : (strContainsSub (payloadText e.payload) (likePattern mid) &&
      e.published == 0) = false := by
    rw [h]; simp
  unfold cancelPoint
  rw [hc]
  simpa using h

theorem map_mid_cancelMatching (mid : Option Nat) (l : List OutboxEvent) :
    (cancelMatching mid l).map (·.payload.measurement_id) =
      l.map (·.payload.measurement_id) := by
  induction l with
  | nil => rfl
  | cons x xs ih =>
    show (cancelPoint mid x).payload.measurement_id ::
        (cancelMatching mid xs).map (·.payload.measurement_id) =
      (x :: xs).map (·.payload.measurement_id)
    rw [cancelPoint_payload, ih, List.map_cons]

theorem compensate_store_eq (msg : DlqMessage) (s : MStore) :
    (compensate_saga_failure msg false s).1 =
      { s with
        measurements := match msg.measurement_id with
          | some mid => s.measurements.filter (fun m => m.id ≠ mid)
          | none => s.measurements,
        outbox := cancelMatching msg.measurement_id s.outbox } := rfl

theorem inv_step (op : MOp) {s : MStore} (hInv : Inv s) : Inv (applyOp op s) := by
  obtain ⟨h1, hm, he, hnd, hsent⟩ := hInv
  cases op with
  | measureOp req ts o =>
    show Inv (measure req ts o s).1
    rcases measure_store_cases req ts o s with hcase | hcase
    · rw [hcase]; exact ⟨h1, hm, he, hnd, hsent⟩
    · rw [hcase]
      refine ⟨Nat.le_succ_of_le h1, ?_, ?_, ?_, ?_⟩
      · intro m hmm
        rcases List.mem_append.mp hmm with hold | hnew
        · exact ⟨(hm m hold).1, Nat.lt_succ_of_lt (hm m hold).2⟩
        · rw [List.mem_singleton.mp hnew]
          exact ⟨h1, Nat.lt_succ_self _⟩
      · intro e hee
        rcases List.mem_append.mp hee with hold | hnew
        · exact ⟨(he e hold).1, Nat.lt_succ_of_lt (he e hold).2⟩
        · rw [List.mem_singleton.mp hnew]
          exact ⟨h1, Nat.lt_succ_self _⟩
      · rw [List.map_append]
        rw [List.nodup_append]
        refine ⟨hnd, List.nodup_singleton _, ?_⟩
        intro a ha hb
        obtain ⟨e, hee, hmid⟩ := List.mem_map.mp ha
        have hlt : a < s.next_mid := hmid ▸ (he e hee).2
        have : a = s.next_mid := by simpa using hb
        exact absurd (this ▸ hlt) (lt_irrefl _)
      · intro m hmm hst
        rcases List.mem_append.mp hmm with hold | hnew
        · obtain ⟨e, hee, hmid, hpub⟩ := hsent m hold hst
          exact ⟨e, List.mem_append_left _ hee, hmid, hpub⟩
        · rw [List.mem_singleton.mp hnew] at hst
          simp at hst
  | publishOp pubOk =>
    show Inv (publisherCycle pubOk s).1
    have hspec := cycleGo_spec pubOk (selectBatch s) s
    have hcnt := cycleGo_counters pubOk (selectBatch s) s
    have hob : (publisherCycle pubOk s).1.outbox =
        s.outbox.map (markPubList (succIds pubOk (selectBatch s))) := hspec.1
    have hms : (publisherCycle pubOk s).1.measurements =
        s.measurements.map (markSentList (sentMids pubOk (selectBatch s))) :=
      hspec.2.1
    have hnm : (publisherCycle pubOk s).1.next_mid = s.next_mid := hcnt.1
    refine ⟨?_, ?_, ?_, ?_, ?_⟩
    · rw [hnm]; exact h1
    · intro m hmm
      rw [hms] at hmm
      obtain ⟨m0, hm0, rfl⟩ := List.mem_map.mp hmm
      rw [markSentList_preserves_id, hnm]
      exact hm m0 hm0
    · intro e hee
      rw [hob] at hee
      obtain ⟨e0, he0, rfl⟩ := List.mem_map.mp hee
      rw [markPubList_payload, hnm]
      exact he e0 he0
    · rw [hob, map_mid_markPubList]
      exact hnd
    · intro m hmm hst
      rw [hms] at hmm
      obtain ⟨m0, hm0, rfl⟩ := List.mem_map.mp hmm
      by_cases hmem : m0.id ∈ sentMids pubOk (selectBatch s)
      · have hmm' : m0.id ∈ (List.filter (fun e => pubOk e.id)
            (selectBatch s)).map (·.payload.measurement_id) :=
          List.mem_of_mem_filter hmem
        obtain ⟨e, hef, heq⟩ := List.mem_map.mp hmm'
        obtain ⟨heb, hok⟩ := List.mem_filter.mp hef
        refine ⟨markPubList (succIds pubOk (selectBatch s)) e, ?_, ?_, ?_⟩
        · rw [hob]
          exact List.mem_map.mpr ⟨e, (mem_of_mem_selectBatch heb).1, rfl⟩
        · rw [markPubList_payload, markSentList_preserves_id, heq]
        · exact markPubList_pub_of_mem
            (List.mem_map.mpr ⟨e, hef, rfl⟩)
      · have hm0eq : markSentList (sentMids pubOk (selectBatch s)) m0 = m0 := by
          unfold markSentList; rw [if_neg hmem]
        rw [hm0eq] at hst
        obtain ⟨e, hee, hmid, hpub⟩ := hsent m0 hm0 hst
        refine ⟨markPubList (succIds pubOk (selectBatch s)) e, ?_, ?_, ?_⟩
        · rw [hob]
          exact List.mem_map.mpr ⟨e, hee, rfl⟩
        · rw [markPubList_payload, markSentList_preserves_id, hmid]
        · exact markPubList_pub_one hpub
  | compensateOp msg dbFail =>
    show Inv (compensate_saga_failure msg dbFail s).1
    cases dbFail with
    | true => exact ⟨h1, hm, he, hnd, hsent⟩
    | false =>
      rw [compensate_store_eq]
      have hsub : ∀ m ∈ ((match msg.measurement_id with
          | some mid => s.measurements.filter (fun m => m.id ≠ mid)
          | none => s.measurements : List Measurement)),
          m ∈ s.measurements := by
        rcases msg.measurement_id with _ | mid
        · intro m hmm; exact hmm
        · intro m hmm; exact List.mem_of_mem_filter hmm
      refine ⟨h1, ?_, ?_, ?_, ?_⟩
      · intro m hmm
        exact hm m (hsub m hmm)
      · intro e hee
        obtain ⟨e0, he0, rfl⟩ := List.mem_map.mp hee
        rw [cancelPoint_payload]
        exact he e0 he0
      · show ((cancelMatching msg.measurement_id s.outbox).map
          (·.payload.measurement_id)).Nodup
        rw [map_mid_cancelMatching]
        exact hnd
      · intro m hmm hst
        obtain ⟨e, hee, hmid, hpub⟩ := hsent m (hsub m hmm) hst
        exact ⟨cancelPoint msg.measurement_id e,
          List.mem_map.mpr ⟨e, hee, rfl⟩,
          by rw [cancelPoint_payload]; exact hmid,
          cancelPoint_pub_one hpub⟩

theorem reachable_inv {s : MStore} (hs : Reachable s) : Inv s := by
  induction hs with
  | init => exact inv_init
  | step op h ih => exact inv_step op ih

/-! ### C8: every `sent` measurement has exactly one published event -/

/-- **C8.** In every store reachable by any interleaving of the three
operations on the measurement-side database (Outbox Writer insert, Outbox
Publisher cycle, Compensation Listener delivery), every Measurement whose
status is `'sent'` has exactly one OutboxEvent whose payload embeds its id
and whose publish state is `published`. -/
theorem sent_measurement_unique_published_event (s : MStore)
    (hs : Reachable s) :
    ∀ m ∈ s.measurements, m.status = .sent →
      (s.outbox.filter (fun e =>
        e.payload.measurement_id == m.id && e.published == 1)).length = 1 := by
  intro m hmm hst
  have hInv := reachable_inv hs
  obtain ⟨e, hee, hmid, hpub⟩ := hInv.2.2.2.2 m hmm hst
  apply le_antisymm
  · exact length_filter_key_le_one (·.payload.measurement_id)
      (fun e => e.published == 1) m.id s.outbox hInv.2.2.2.1
  · have hmemf : e ∈ s.outbox.filter (fun e =>
        e.payload.measurement_id == m.id && e.published == 1) :=
      List.mem_filter.mpr ⟨hee, by simp [hmid, hpub]⟩
    exact List.length_pos_of_mem hmemf

/-- C8 witness store: one measurement created and published
(measurement 1 ends `sent`, its event `published`). -/
def c8Store : MStore :=
  applyOp (.publishOp (fun _ => true))
    (applyOp (.measureOp ⟨1, 120, false⟩ "t1" ⟨none, false⟩) initStore)

theorem sent_measurement_unique_published_event_witness :
    ((⟨1, 1, 120, "t1", .sent⟩ : Measurement) ∈ c8Store.measurements ∧
      (⟨1, 1, 120, "t1", .sent⟩ : Measurement).status = .sent) ∧
    (c8Store.outbox.filter (fun e =>
      e.payload.measurement_id == 1 && e.published == 1)).length = 1 :=
  ⟨⟨by decide, rfl⟩,
   sent_measurement_unique_published_event c8Store
     (Reachable.step _ (Reachable.step _ Reachable.init))
     ⟨1, 1, 120, "t1", .sent⟩ (by decide) rfl⟩

/-! ### The publisher worker's connection lifecycle (C9)

`publish_outbox_events` first runs a bounded connect-retry loop
(`max_retries = 10`, `retry_delay = 5` seconds between attempts; the final
failed attempt returns, stopping the worker).  Only after connecting does it
enter `while True`, whose body catches **every** exception — including
publish failures on a dead channel — and sleeps 5 s; the loop contains no
reconnect logic and no exit.  `workerStep` is one scheduling step of that
worker: one connection attempt while connecting, one polling cycle while
running.  `elapsed` accumulates the seconds slept. -/

def max_retries : Nat := 10
def retry_delay : Nat := 5
def poll_interval : Nat := 5

inductive WPhase where
  | connecting (attempt : Nat)
  | running
  | stopped
  deriving DecidableEq, Repr

structure WorkerState where
  phase : WPhase
  store : MStore
  elapsed : Nat
  deriving DecidableEq, Repr

def workerStep (connOk : Nat → Bool) (pubOk : Nat → Bool) :
    WorkerState → WorkerState
  | ⟨.connecting a, s, t⟩ =>
    if connOk a then ⟨.running, s, t⟩
    else if a + 1 < max_retries then ⟨.connecting (a + 1), s, t + retry_delay⟩
    else ⟨.stopped, s, t⟩
  | ⟨.running, s, t⟩ => ⟨.running, (publisherCycle pubOk s).1, t + poll_interval⟩
  | ⟨.stopped, s, t⟩ => ⟨.stopped, s, t⟩

/-- Store with a single unpublished event, as left by one successful
`POST /measure`. -/
def c9Store : MStore :=
  (measure ⟨1, 120, false⟩ "t1" ⟨none, false⟩ initStore).1

/-- **C9 (counterexample).** Connection established on the first attempt,
then the broker connection is lost (every `basic_publish` raises, modelled by
the all-false publish oracle): after 50 further steps — far beyond the
claimed 10 bounded retries — the publisher is still `running`, has never
entered a reconnect attempt and has not stopped, and the event is still
unpublished; so on a connection loss after startup the publisher neither
re-establishes the connection nor stops permanently. -/
theorem publisher_connection_loss_never_stops :
    ((workerStep (fun _ => true) (fun _ => false))^[50]
        ⟨.connecting 0, c9Store, 0⟩).phase = .running ∧
    ((workerStep (fun _ => true) (fun _ => false))^[50]
        ⟨.connecting 0, c9Store, 0⟩).store.outbox.filter
      (fun e => e.published == 0) = c9Store.outbox ∧
    WPhase.running ≠ WPhase.stopped := by
  set_option maxRecDepth 4000 in decide

/-- **C9 (amended).** The bounded-retry policy is a startup policy: when
every connection attempt fails, the worker makes exactly `max_retries = 10`
attempts spaced `retry_delay = 5` seconds apart, then stops permanently
(every later step leaves it stopped) having slept `5·9 = 45` seconds, with
the store — hence every unpublished outbox event — untouched; and once
running it never leaves the running phase, whatever the publish outcomes. -/
theorem publisher_startup_retry_exhaustion (connOk pubOk : Nat → Bool)
    (s : MStore) (h : ∀ a, connOk a = false) :
    (∀ k, k < max_retries →
      (workerStep connOk pubOk)^[k] ⟨.connecting 0, s, 0⟩ =
        ⟨.connecting k, s, retry_delay * k⟩) ∧
    (∀ j, (workerStep connOk pubOk)^[max_retries + j] ⟨.connecting 0, s, 0⟩ =
      ⟨.stopped, s, retry_delay * (max_retries - 1)⟩) ∧
    (∀ n (s0 : MStore) (t0 : Nat),
      ((workerStep connOk pubOk)^[n] ⟨.running, s0, t0⟩).phase = .running) := by
  have hstep : ∀ a (s0 : MStore) (t0 : Nat), a + 1 < max_retries →
      workerStep connOk pubOk ⟨.connecting a, s0, t0⟩ =
        ⟨.connecting (a + 1), s0, t0 + retry_delay⟩ := by
    intro a s0 t0 ha
    simp only [workerStep]
    rw [h a]
    simp [ha]
  have hlast : ∀ a (s0 : MStore) (t0 : Nat), ¬(a + 1 < max_retries) →
      workerStep connOk pubOk ⟨.connecting a, s0, t0⟩ = ⟨.stopped, s0, t0⟩ := by
    intro a s0 t0 ha
    simp only [workerStep]
    rw [h a]
    simp [ha]
  have hphases : ∀ k, k < max_retries →
      (workerStep connOk pubOk)^[k] ⟨.connecting 0, s, 0⟩ =
        ⟨.connecting k, s, retry_delay * k⟩ := by
    intro k
    induction k with
    | zero => intro _; rfl
    | succ k ih =>
      intro hk
      rw [Function.iterate_succ_apply', ih (Nat.lt_of_succ_lt hk),
        hstep k s (retry_delay * k) hk]
      rfl
  refine ⟨hphases, ?_, ?_⟩
  · intro j
    induction j with
    | zero =>
      have h9 : (9 : Nat) < max_retries := by decide
      rw [show max_retries + 0 = 9 + 1 from rfl, Function.iterate_succ_apply',
        hphases 9 h9, hlast 9 s (retry_delay * 9) (by decide)]
      rfl
    | succ j ih =>
      rw [show max_retries + (j + 1) = (max_retries + j) + 1 from rfl,
        Function.iterate_succ_apply', ih]
      rfl
  · intro n
    induction n with
    | zero => intro s0 t0; rfl
    | succ n ih =>
      intro s0 t0
      rw [Function.iterate_succ_apply]
      exact ih (publisherCycle pubOk s0).1 (t0 + poll_interval)

theorem publisher_startup_retry_exhaustion_witness :
    (∀ a, (fun _ => false : Nat → Bool) a = false) ∧
    (∀ j, (workerStep (fun _ => false) (fun _ => true))^[max_retries + j]
        ⟨.connecting 0, initStore, 0⟩ =
      ⟨.stopped, initStore, retry_delay * (max_retries - 1)⟩) :=
  ⟨fun _ => rfl,
   (publisher_startup_retry_exhaustion (fun _ => false) (fun _ => true)
     initStore (fun _ => rfl)).2.1⟩

/-! ## Child-profile service (`src/child_profile_service/main.py`)

`child_profiles` table: `child_id INTEGER PRIMARY KEY, name TEXT, age
INTEGER, last_height REAL, last_updated TEXT` — all non-key columns
nullable. -/

structure ChildProfile where
  child_id : Int
  name : Option String
  age : Option Int
  last_height : Option Rat
  last_updated : Option String
  deriving DecidableEq, Repr

/-- `INSERT OR REPLACE INTO child_profiles (child_id, last_height,
last_updated) VALUES (?, ?, datetime('now'))`: on a `child_id` conflict the
existing row is deleted and the new row inserted, so the columns not named in
the INSERT (`name`, `age`) are NULL in the resulting row. -/
def upsertProfile (cid : Int) (h : Rat) (ts : String)
    (ps : List ChildProfile) : List ChildProfile :=
  if ps.any (fun r => r.child_id == cid) then
    ps.map fun r =>
      if r.child_id == cid then ⟨cid, none, none, some h, some ts⟩ else r
  else
    ps ++ [⟨cid, none, none, some h, some ts⟩]

/-- A deserialized SAGA message (`json.loads(body)`); `.get` of a missing
key yields `None`. -/
structure SagaMessage where
  child_id : Option Int
  height : Option Rat
  force_error : Option Bool
  deriving DecidableEq, Repr

/-- Python truthiness of `not child_id`: `None` and `0` are falsy. -/
def pyFalsyInt : Option Int → Bool
  | none => true
  | some n => n == 0

/-- Python truthiness of `not height`: `None` and `0.0` are falsy. -/
def pyFalsyRat : Option Rat → Bool
  | none => true
  | some h => h == 0

/-- Python truthiness of `if message_data.get("force_error"):`. -/
def pyTruthy : Option Bool → Bool
  | none => false
  | some b => b

inductive UpsertOutcome where
  | ok (profiles : List ChildProfile)
  | error
  deriving DecidableEq, Repr

/-- `update_profile_from_saga`.  Raises (→ `.error`) when `not child_id or
not height` (Python truthiness: absent **or zero**), when `force_error` is
truthy, or when the SQLite upsert itself fails (`dbFail`); otherwise commits
the upsert.  In the success branch the options are non-falsy, so `getD 0`
just extracts their values. -/
def update_profile_from_saga (msg : SagaMessage) (dbFail : Bool) (ts : String)
    (ps : List ChildProfile) : UpsertOutcome :=
  if pyFalsyInt msg.child_id || pyFalsyRat msg.height then .error
  else if pyTruthy msg.force_error then .error
  else if dbFail then .error
  else .ok (upsertProfile (msg.child_id.getD 0) (msg.height.getD 0) ts ps)

inductive SagaAck where
  | ack
  | nackNoRequeue
  deriving DecidableEq, Repr

/-- `saga_callback`: any exception (undeserializable body, validation
failure, forced error, upsert failure) is caught and answered with
`basic_nack(requeue=False)`, routing the message to the SAGA DLQ; on success
the message is acknowledged. -/
def saga_callback (body : Option SagaMessage) (dbFail : Bool) (ts : String)
    (ps : List ChildProfile) : List ChildProfile × SagaAck :=
  match body with
  | none => (ps, .nackNoRequeue)
  | some msg =>
    match update_profile_from_saga msg dbFail ts ps with
    | .ok ps' => (ps', .ack)
    | .error => (ps, .nackNoRequeue)

inductive PutResult where
  | updated
  | error
  deriving DecidableEq, Repr

/-- `PUT /profiles/{child_id}` — same `INSERT OR REPLACE` as the SAGA
consumer, plus the `force_error` test hook. -/
def update_profile (cid : Int) (h : Rat) (force_error : Bool) (ts : String)
    (ps : List ChildProfile) : List ChildProfile × PutResult :=
  if force_error then (ps, .error)
  else (upsertProfile cid h ts ps, .updated)

/-! ### C3: accept/reject behaviour of the SAGA consumer -/

/-- The exact acceptance condition of the consumer: both fields present
**and non-zero** (Python truthiness), `force_error` not truthy, and the
upsert not raising. -/
def sagaAccepted (msg : SagaMessage) (dbFail : Bool) : Bool :=
  !pyFalsyInt msg.child_id && !pyFalsyRat msg.height &&
    !pyTruthy msg.force_error && !dbFail

/-- **C3 (counterexample).** A message carrying both required fields
(`child_id = 0` present, `height = 100.0` present) with `force_error`
unset and a healthy database is nevertheless rejected without requeue and
the store is left unchanged — `if not child_id` treats the present value 0
as missing — where the claim requires it to be upserted and acknowledged. -/
theorem saga_zero_child_id_rejected :
    saga_callback (some ⟨some 0, some 100, some false⟩) false "2024-05-01"
        [⟨1, some "John", some 7, some 120, some "old"⟩] =
      ([⟨1, some "John", some 7, some 120, some "old"⟩], .nackNoRequeue) ∧
    SagaAck.nackNoRequeue ≠ SagaAck.ack := by
  decide

/-- **C3 (amended).** A delivered SAGA message is upserted (with the new
height and refreshed timestamp) and acknowledged exactly when `child_id` and
`height` are present and non-falsy (non-zero), `force_error` is not truthy,
and the upsert raises no exception; in every other case — including an
undeserializable body — it is rejected without requeue (routing it to the
SAGA dead-letter queue) with the profile store unchanged. -/
theorem saga_callback_characterization (msg : SagaMessage) (dbFail : Bool)
    (ts : String) (ps : List ChildProfile) :
    saga_callback (some msg) dbFail ts ps =
      (if sagaAccepted msg dbFail then
        (upsertProfile (msg.child_id.getD 0) (msg.height.getD 0) ts ps,
          SagaAck.ack)
      else (ps, SagaAck.nackNoRequeue)) ∧
    saga_callback none dbFail ts ps = (ps, SagaAck.nackNoRequeue) := by
  refine ⟨?_, rfl⟩
  unfold saga_callback update_profile_from_saga sagaAccepted
  by_cases h1 : pyFalsyInt msg.child_id
  · simp [h1]
  · by_cases h2 : pyFalsyRat msg.height
    · simp [h1, h2]
    · by_cases h3 : pyTruthy msg.force_error
      · simp [h1, h2, h3]
      · by_cases h4 : dbFail
        · simp [h1, h2, h3, h4]
        · simp [h1, h2, h3, h4]

/-! ### C10: the upsert replaces the whole row -/

/-- **C10.** When a SAGA message's `child_id` matches an existing profile row
with populated `name` and `age`, the consumer's upsert replaces the entire
row: afterwards every row with that `child_id` is exactly
`⟨cid, NULL, NULL, height, timestamp⟩` — `name` and `age` are nulled — and
the `PUT /profiles/{child_id}` handler performs the identical replacement. -/
theorem saga_upsert_replaces_entire_row (cid : Int) (h : Rat) (ts : String)
    (ps : List ChildProfile) (name : String) (age : Int)
    (oldh : Option Rat) (oldts : Option String)
    (hcid : cid ≠ 0) (hh : h ≠ 0)
    (hmem : (⟨cid, some name, some age, oldh, oldts⟩ : ChildProfile) ∈ ps) :
    update_profile_from_saga ⟨some cid, some h, none⟩ false ts ps =
      .ok (upsertProfile cid h ts ps) ∧
    (update_profile cid h false ts ps).1 = upsertProfile cid h ts ps ∧
    (∀ r ∈ upsertProfile cid h ts ps, r.child_id = cid →
      r = ⟨cid, none, none, some h, some ts⟩) ∧
    (⟨cid, none, none, some h, some ts⟩ : ChildProfile) ∈
      upsertProfile cid h ts ps := by
  have hany : ps.any (fun r => r.child_id == cid) = true :=
    List.any_eq_true.mpr ⟨⟨cid, some name, some age, oldh, oldts⟩, hmem,
      by simp⟩
  have hups : upsertProfile cid h ts ps =
      ps.map fun r =>
        if r.child_id == cid then ⟨cid, none, none, some h, some ts⟩ else r := by
    unfold upsertProfile
    rw [if_pos hany]
  refine ⟨?_, rfl, ?_, ?_⟩
  · unfold update_profile_from_saga
    simp [pyFalsyInt, pyFalsyRat, pyTruthy, hcid, hh]
  · intro r hr hrid
    rw [hups] at hr
    obtain ⟨r0, _, rfl⟩ := List.mem_map.mp hr
    by_cases hr0 : r0.child_id == cid
    · rw [if_pos hr0]
    · rw [if_neg hr0] at hrid ⊢
      exact absurd (by simp [hrid]) hr0
  · rw [hups]
    exact List.mem_map.mpr ⟨⟨cid, some name, some age, oldh, oldts⟩, hmem,
      by simp⟩

def c10Row : ChildProfile := ⟨1, some "John", some 7, some 120, some "old"⟩

def c10Profiles : List ChildProfile := [c10Row]

theorem saga_upsert_replaces_entire_row_witness :
    ((1 : Int) ≠ 0 ∧ (130 : Rat) ≠ 0 ∧ c10Row ∈ c10Profiles) ∧
    (update_profile_from_saga ⟨some 1, some 130, none⟩ false "now" c10Profiles =
        .ok (upsertProfile 1 130 "now" c10Profiles) ∧
      (update_profile 1 130 false "now" c10Profiles).1 =
        upsertProfile 1 130 "now" c10Profiles ∧
      (∀ r ∈ upsertProfile 1 130 "now" c10Profiles, r.child_id = 1 →
        r = ⟨1, none, none, some 130, some "now"⟩) ∧
      (⟨1, none, none, some 130, some "now"⟩ : ChildProfile) ∈
        upsertProfile 1 130 "now" c10Profiles) :=
  ⟨⟨by decide, by decide, by decide⟩,
   saga_upsert_replaces_entire_row 1 130 "now" c10Profiles "John" 7 (some 120)
     (some "old") (by decide) (by decide) (by decide)⟩

end SoaLabs
